import Mathlib

/-!
Verification of the hiktools SADP protocol core (src/cpp) against its
natural-language specification.

The embedding models C byte buffers as `List Nat` (each entry one byte of
memory). The target platform of the source is little-endian 64-bit Linux
(x86-64): the code itself hard-wires this, e.g. `_Hdr->h_proto = 0x3380`
paired with `ntohs(hdr->h_proto) == 0x8033` on receive only agrees on a
little-endian host. Accordingly a C `unsigned short` read at word index `i`
of a buffer is the little-endian pair of bytes `2*i`, `2*i+1`, and plain
(non-htons) stores of multi-byte fields put the low byte first.
-/

/-- Byte of a buffer at byte offset `i`. Memory holds bytes, so reads are
reduced mod 256; positions outside the list read as 0 (the source reads
whatever memory holds there - the buffers in the library are zero-filled
with `memset`/zero pages, which this models). -/
def byteAt (b : List Nat) (i : Nat) : Nat :=
  b.getD i 0 % 256

/-- The `unsigned short` at word index `i` of a byte buffer, read in host
(little-endian) order, as `eth::sadp::Checksum` does through its
`unsigned short *` argument. -/
def wordAt (b : List Nat) (i : Nat) : Nat :=
  byteAt b (2 * i) + 256 * byteAt b (2 * i + 1)

/-- Little-endian (host order) memory image of a `uint16_t` store, as in
`_Frame->f_client_type = _ClientType` or `_Frame->f_marker = 0x0406U`. -/
def u16le (v : Nat) : List Nat :=
  [v % 256, v / 256 % 256]

/-- Big-endian memory image of a `uint16_t` store through `htons`. -/
def u16be (v : Nat) : List Nat :=
  [v / 256 % 256, v % 256]

/-- Big-endian memory image of a `uint32_t` store through `htonl`. -/
def u32be (v : Nat) : List Nat :=
  [v / 16777216 % 256, v / 65536 % 256, v / 256 % 256, v % 256]

/-- The interleaved accumulation loop of `eth::sadp::Checksum`
(checksum.cpp lines 16-24): a do-while executed `n` times on state
`(pos, rem, var1, var2)` where `pos` is the word index `pHeader` has
advanced to, `rem` the remaining `prefix` counter, and `var1`/`var2` the
two accumulators. Each pass adds `pHeader[0]` to `var1`, `pHeader[1]` to
`var2`, advances `pHeader` by two words and decrements `prefix` by 4
(never wrapping: the loop runs `((prefix-4)>>2)+1` times starting from
`prefix >= 4`, so `rem >= 4` on every pass). `var1`/`var2` are kept as
exact sums: they are C `int` accumulators of 16-bit words, and no call
reachable in the library comes near 2^31. -/
def eth.sadp.checksumLoop (header : List Nat) : Nat → Nat × Nat × Nat × Nat → Nat × Nat × Nat × Nat
  | 0, st => st
  | n + 1, (pos, rem, var1, var2) =>
      eth.sadp.checksumLoop header n
        (pos + 2, rem - 4, var1 + wordAt header pos, var2 + wordAt header (pos + 1))

/-- Shallow embedding of `eth::sadp::Checksum` (checksum.cpp). `header` is
the byte buffer behind the `unsigned short *` argument; `ty` is the second
parameter (named `prefix` in the source, semantically the client-type
discriminant), a C `unsigned int`. The structure follows the source line
by line: the guarded do-while (condition `3 < (prefix & 0xFFFFFFFE)`, count
`(prefix - 4 >> 2) + 1`), the single extra word when `1 < prefix` remains
(`checksum = *pHeader`, starting from `checksum = 0`), the sum of all
accumulators, the trailing byte (`*(unsigned char *)pHeader`, the low byte
of the next word on the little-endian host) when `prefix != 0`, the 16-bit
fold and the final 32-bit one's complement (`~x = 2^32 - 1 - x` on
`unsigned int`). -/
def eth.sadp.Checksum (header : List Nat) (ty : Nat) : Nat :=
  let d := ty % 4294967296
  let n := if 3 < d &&& 0xFFFFFFFE then ((d - 4) >>> 2) + 1 else 0
  match eth.sadp.checksumLoop header n (0, d, 0, 0) with
  | (pos, rem, var1, var2) =>
    let ck0 := if 1 < rem then wordAt header pos else 0
    let pos2 := if 1 < rem then pos + 1 else pos
    let rem2 := if 1 < rem then rem - 2 else rem
    let ck1 := (ck0 + var1 + var2) % 4294967296
    let ck2 := if rem2 ≠ 0 then (ck1 + byteAt header (2 * pos2)) % 4294967296 else ck1
    let ck3 := (ck2 >>> 16) + (ck2 &&& 0xFFFF)
    4294967295 - ((ck3 >>> 16) + ck3) % 4294967296

/-- The checksum algorithm exactly as the specification words it, for the
refinement claim (this is the one definition written from the spec, not
from the source): if the discriminant with its two low bits cleared
exceeds 3, sum interleaved pairs into two accumulators (`var1 += word[2i]`,
`var2 += word[2i+1]`) for `((discriminant-4)>>2)+1` iterations, decrementing
the remaining length by 4 each time; if the remaining length is then > 1,
add one more word into a third accumulator and decrement by 2; sum all
three accumulators; if one byte remains, add it as an unsigned 8-bit value;
fold the result by adding its high and low 16 bits, then return the one's
complement of (high+low) of that folded value. -/
def eth.sadp.ChecksumSpec (header : List Nat) (disc : Nat) : Nat :=
  let d := disc % 4294967296
  let iters := if 3 < d &&& 0xFFFFFFFC then ((d - 4) >>> 2) + 1 else 0
  let var1 := Finset.sum (Finset.range iters) (fun i => wordAt header (2 * i))
  let var2 := Finset.sum (Finset.range iters) (fun i => wordAt header (2 * i + 1))
  let rem := d - 4 * iters
  let pos := 2 * iters
  let ck0 := if 1 < rem then wordAt header pos else 0
  let pos2 := if 1 < rem then pos + 1 else pos
  let rem2 := if 1 < rem then rem - 2 else rem
  let ck1 := (ck0 + var1 + var2) % 4294967296
  let ck2 := if rem2 ≠ 0 then (ck1 + byteAt header (2 * pos2)) % 4294967296 else ck1
  let ck3 := (ck2 >>> 16) + (ck2 &&& 0xFFFF)
  4294967295 - ((ck3 >>> 16) + ck3) % 4294967296

/-- The frame counter of ethernet.cpp (`eth::Counter`): a single
`unsigned int num` field. Every operation of the class keeps `num` below
2^32, mirroring the C `unsigned int` type of the field. -/
structure eth.Counter where
  num : Nat

/-- `eth::Counter::Counter(unsigned int _Start)`: the start value crosses
the `unsigned int` parameter boundary, i.e. is reduced mod 2^32. -/
def eth.mkCounter (start : Nat) : eth.Counter :=
  ⟨start % 4294967296⟩

/-- `eth::Counter::Get`: returns the current value. -/
def eth.Counter.Get (c : eth.Counter) : Nat :=
  c.num

/-- `eth::Counter::Increment`: `num = (unsigned int)(num + 1)`, wrapping
mod 2^32. -/
def eth.Counter.Increment (c : eth.Counter) : eth.Counter :=
  ⟨(c.num + 1) % 4294967296⟩

/-- `eth::Counter::GetAndIncrement`: returns the value held before the
increment, together with the post-state (explicit state passing for the
mutation of `this->num`). -/
def eth.Counter.GetAndIncrement (c : eth.Counter) : Nat × eth.Counter :=
  (c.num, c.Increment)

/-- Trace of `n` consecutive `GetAndIncrement()` calls from state `c`:
the list of returned values in call order. -/
def eth.counterTrace (c : eth.Counter) : Nat → List Nat
  | 0 => []
  | n + 1 =>
      (eth.Counter.GetAndIncrement c).1 ::
        eth.counterTrace (eth.Counter.GetAndIncrement c).2 n

/-- Static helper `IntFromHex` of ethernet.cpp: hex digit character code to
its value, any other byte returned unchanged. Character codes: 48-57 are
0-9, 97-102 are a-f, 65-70 are A-F. -/
def eth.IntFromHex (b : Nat) : Nat :=
  if 48 ≤ b ∧ b ≤ 57 then b - 48
  else if 97 ≤ b ∧ b ≤ 102 then b - 97 + 10
  else if 65 ≤ b ∧ b ≤ 70 then b - 65 + 10
  else b

/-- One output byte of `eth::mac::ToBytes`: `IntFromHex(s[i]) << 4 |
IntFromHex(s[i+1]) & 0xF` (C precedence: `(c << 4) | (c1 & 0xF)`). Reads
past the end of a short string yield 0 here; the C code would read
whatever follows the string. -/
def eth.hexPairMac (s : List Nat) (i : Nat) : Nat :=
  (eth.IntFromHex (s.getD i 0)) <<< 4 ||| ((eth.IntFromHex (s.getD (i + 1) 0)) &&& 0xF)

/-- `eth::mac::ToBytes` (ethernet.cpp): parses a "AA:BB:CC:DD:EE:FF"
style character string into 6 bytes, reading the hex pair at character
positions 0, 3, 6, 9, 12, 15 (the loop `for i = 0; i < 18; i += 3`,
unrolled). -/
def eth.mac.ToBytes (s : List Nat) : List Nat :=
  [eth.hexPairMac s 0, eth.hexPairMac s 3, eth.hexPairMac s 6,
   eth.hexPairMac s 9, eth.hexPairMac s 12, eth.hexPairMac s 15]

/-- One output byte of the IPv6 overload of `eth::ip::ToBytes`:
`IntFromHex(s[i]) << 4 | IntFromHex(s[i+1]) & 0xFF` (note the 0xFF mask,
unlike the MAC variant's 0xF). -/
def eth.hexPairIp6 (s : List Nat) (i : Nat) : Nat :=
  (eth.IntFromHex (s.getD i 0)) <<< 4 ||| ((eth.IntFromHex (s.getD (i + 1) 0)) &&& 0xFF)

/-- The IPv6 overload of `eth::ip::ToBytes` (ethernet.cpp): parses the
32-hex-character raw address string (as stored from /proc/net/if_inet6)
into 16 bytes, one per character pair (the loop
`for i = 0; i < 32; i += 2`, unrolled). -/
def eth.ip.ToBytes6 (s : List Nat) : List Nat :=
  [eth.hexPairIp6 s 0, eth.hexPairIp6 s 2, eth.hexPairIp6 s 4,
   eth.hexPairIp6 s 6, eth.hexPairIp6 s 8, eth.hexPairIp6 s 10,
   eth.hexPairIp6 s 12, eth.hexPairIp6 s 14, eth.hexPairIp6 s 16,
   eth.hexPairIp6 s 18, eth.hexPairIp6 s 20, eth.hexPairIp6 s 22,
   eth.hexPairIp6 s 24, eth.hexPairIp6 s 26, eth.hexPairIp6 s 28,
   eth.hexPairIp6 s 30]

/-- Character list of the dotted-decimal component starting at the head of
`s`: digits accumulated until a '.' (code 46) or the end. -/
def eth.dottedHead : List Nat → Nat → Nat
  | [], acc => acc
  | c :: rest, acc =>
      if c = 46 then acc else eth.dottedHead rest (acc * 10 + (c - 48))

/-- Drop a dotted-decimal string through its first '.' (code 46). -/
def eth.dropDot : List Nat → List Nat
  | [] => []
  | c :: rest => if c = 46 then rest else eth.dropDot rest

/-- Start of the k-th dotted component (after k dots). -/
def eth.compStart : Nat → List Nat → List Nat
  | 0, s => s
  | k + 1, s => eth.compStart k (eth.dropDot s)

/-- Value of the k-th dotted-decimal component, as a byte. -/
def eth.dottedComp (s : List Nat) (k : Nat) : Nat :=
  eth.dottedHead (eth.compStart k s) 0 % 256

/-- Modelled from the spec: the IPv4 overload of `eth::ip::ToBytes` wraps
libc `inet_aton`, which is not part of this repository. Following the
spec ("4-byte IPv4" stored as "raw byte copies for MAC/IP arrays"), the
dotted-decimal string is parsed into its four components, which land in
memory in address (network) order, first component first - exactly the
byte image `inet_aton` leaves in `s_addr`. -/
def eth.ip.ToBytes4 (s : List Nat) : List Nat :=
  [eth.dottedComp s 0, eth.dottedComp s 1, eth.dottedComp s 2, eth.dottedComp s 3]

/-- The network interface consumed by the packet builder
(`eth::adapter::NetInterface`, adapter.h): it stores its MAC, IPv6 and
IPv4 addresses as character strings (here lists of character codes), which
`GetMacAddress`/`GetIpv6Address`/`GetIpv4Address` return and the builder
converts with the `ToBytes` functions. The index, name and scope fields
play no role in the claims and are omitted. -/
structure eth.adapter.NetInterface where
  mac : List Nat
  ipv6 : List Nat
  ipv4 : List Nat

/-- The packet type codes of `eth::sadp::sadp_packet_type` (ethernet.h):
Response = 0x01, Request = 0x02. -/
inductive eth.sadp.sadp_packet_type where
  | Response
  | Request
deriving DecidableEq

/-- The `uint8_t` cast of a packet type. -/
def eth.sadp.sadp_packet_type.code : eth.sadp.sadp_packet_type → Nat
  | .Response => 0x01
  | .Request => 0x02

/-- The query type codes of `eth::sadp::sadp_query_type` (ethernet.h). -/
inductive eth.sadp.sadp_query_type where
  | DeviceOnlineRequest
  | Inquiry
  | UpdateIP
  | ResetPassword
  | CMSInfo
  | ModifyNetParam
deriving DecidableEq

/-- The `uint8_t` cast of a query type. -/
def eth.sadp.sadp_query_type.code : eth.sadp.sadp_query_type → Nat
  | .DeviceOnlineRequest => 0x02
  | .Inquiry => 0x03
  | .UpdateIP => 0x06
  | .ResetPassword => 0x0a
  | .CMSInfo => 0x0c
  | .ModifyNetParam => 0x10

/-- The `uint8_t qtype` value `eth::sadp::QueryTypeToString` switches on:
the raw byte, decremented (wrapping mod 256, as a `uint8_t--` does) when
the packet type is Response. -/
def eth.sadp.QueryTypeAdjusted (qt : Nat) (pt : eth.sadp.sadp_packet_type) : Nat :=
  if pt = eth.sadp.sadp_packet_type.Response then (qt % 256 + 255) % 256 else qt % 256

/-- `eth::sadp::QueryTypeToString` (ethernet.cpp): copies the raw byte
into a `uint8_t`, decrements it (wrapping mod 256) when the packet type is
Response, then switches over the known query type codes; the default case
is "Unknown". -/
def eth.sadp.QueryTypeToString (qt : Nat) (pt : eth.sadp.sadp_packet_type) : String :=
  let q := eth.sadp.QueryTypeAdjusted qt pt
  if q = 0x03 then "Inquiry"
  else if q = 0x02 then "DeviceOnlineRequest"
  else if q = 0x06 then "UpdateIP"
  else if q = 0x0a then "ResetPassword"
  else if q = 0x0c then "CMSInfo"
  else if q = 0x10 then "ModifyNetParam"
  else "Unknown"

/-- DEFAULT_FRAME_BODY_SIZE of sadplib.h: the SADP frame body (the
`sadp_frame` struct up to its flexible payload member, alignment padding
included). -/
def eth.sadp.packet.DEFAULT_FRAME_BODY_SIZE : Nat := 38

/-- DEFAULT_FRAME_HDR_SIZE of sadplib.h: the 14-byte link header. -/
def eth.sadp.packet.DEFAULT_FRAME_HDR_SIZE : Nat := 14

/-- DEFAULT_FRAME_SIZE of sadplib.h: the whole malloc'd frame buffer. -/
def eth.sadp.packet.DEFAULT_FRAME_SIZE : Nat := 512

/-- MIN_FRAME_SIZE of sadplib.h: the minimum packet size. -/
def eth.sadp.packet.MIN_FRAME_SIZE : Nat := 80

/-- CSADP_CLIENT_TYPE of checksum.h, the default `_ClientType` argument of
`BuildFrame`. -/
def eth.sadp.CSADP_CLIENT_TYPE : Nat := 0x4201

/-- Character codes of the C string literal "FF:FF:FF:FF:FF:FF" that
`BuildFrame` feeds to `mac::ToBytes` for both destination MAC fields
('F' = 70, ':' = 58). -/
def eth.sadp.broadcastMacStr : List Nat :=
  [70, 70, 58, 70, 70, 58, 70, 70, 58, 70, 70, 58, 70, 70, 58, 70, 70]

/-- Memory image of the `sadp_frame` struct (ethernet.h) as
`eth::sadp::packet::BuildFrame` fills it inside its zeroed 512-byte
buffer, from frame offset 0 up to the end of the buffer (498 bytes).
Offsets follow the C struct layout on the target (natural alignment):
f_prefix 0, f_packet_type 1, f_client_type 2 (plain `uint16_t` store,
host little-endian), f_counter 4 (`htonl`, big-endian), f_marker 6.. 8
(plain store of 0x0406: bytes 06 04), f_type 10, f_parameters 11,
f_checksum 12 (`htons`, big-endian), f_src_mac 14, f_src_ip 20 (the
network-order `s_addr` bytes), f_dest_mac 24, two alignment padding
bytes at 30 (zero from `memset`), f_dest_ip 32 (zero), f_subnet_mask 36
(zero), payload from 38, remainder of the 512-byte buffer zero. -/
def eth.sadp.sadpFrameBytes (pt qt ct ctr ck : Nat)
    (srcMac srcIp destMac payload : List Nat) : List Nat :=
  [0x21, pt]
    ++ u16le ct
    ++ u32be ctr
    ++ u16le 0x0406
    ++ [qt, 0x00]
    ++ u16be ck
    ++ srcMac
    ++ srcIp
    ++ destMac
    ++ [0, 0]
    ++ [0, 0, 0, 0]
    ++ [0, 0]
    ++ (payload ++ List.replicate (474 - payload.length) 0)

/-- Shallow embedding of `eth::sadp::packet::BuildFrame` (sadplib.cpp).
Returns the 512-byte frame buffer (link header followed by the SADP frame)
and the counter post-state; a null `_Interface` short-circuits to
`nullptr` before the counter is touched. Field writes follow the source:
`h_proto = 0x3380` (a plain store whose memory image is 80 33, i.e.
ethertype 0x8033 in wire order), client type stored plain (host order),
counter through `htonl`, marker 0x0406 stored plain, the MAC strings
through `mac::ToBytes`, the IPv4 string through `ip::ToBytes`, payload
copied to its offset, and finally
`f_checksum = htons((uint16_t)Checksum(_Frame, (f_client_type >> 8) & 0xFF))`
computed over the frame region while the checksum field still holds the
zero bytes of `memset`. -/
def eth.sadp.packet.BuildFrame (ifc : Option eth.adapter.NetInterface)
    (packetType : eth.sadp.sadp_packet_type) (queryType : eth.sadp.sadp_query_type)
    (payload : List Nat) (payloadLength : Nat) (clientType : Nat)
    (c : eth.Counter) : Option (List Nat) × eth.Counter :=
  match ifc with
  | none => (none, c)
  | some i =>
    let ct := clientType % 65536
    let counterValue := (eth.Counter.GetAndIncrement c).1
    let srcMac := eth.mac.ToBytes i.mac
    let destMac := eth.mac.ToBytes eth.sadp.broadcastMacStr
    let srcIp := eth.ip.ToBytes4 i.ipv4
    let payloadBytes := payload.take payloadLength
    let body0 := eth.sadp.sadpFrameBytes packetType.code queryType.code ct
      counterValue 0 srcMac srcIp destMac payloadBytes
    let ck := eth.sadp.Checksum body0 ((ct >>> 8) &&& 0xFF)
    let body := eth.sadp.sadpFrameBytes packetType.code queryType.code ct
      counterValue (ck % 65536) srcMac srcIp destMac payloadBytes
    (some (destMac ++ srcMac ++ u16le 0x3380 ++ body),
     (eth.Counter.GetAndIncrement c).2)

/-- Shallow embedding of `eth::sadp::packet::BuildInquiry` (sadplib.cpp):
null interface yields `nullptr`; otherwise the interface's raw IPv6
address string is converted to its 16 bytes (`ip::ToBytes` into an
`inquiry_payload`) and handed to `BuildFrame` with packet type Request,
query type Inquiry, payload length 16 and the default client type
CSADP_CLIENT_TYPE. -/
def eth.sadp.packet.BuildInquiry (ifc : Option eth.adapter.NetInterface)
    (c : eth.Counter) : Option (List Nat) × eth.Counter :=
  match ifc with
  | none => (none, c)
  | some i =>
    let payload := eth.ip.ToBytes6 i.ipv6
    eth.sadp.packet.BuildFrame (some i) eth.sadp.sadp_packet_type.Request
      eth.sadp.sadp_query_type.Inquiry payload 16 eth.sadp.CSADP_CLIENT_TYPE c

/-- The sizeof(char *) the source's `sizeof(payload) / sizeof(char)`
actually measures in `GetSize` on the 64-bit target: `payload` there is a
`char *` local, so the expression is the pointer size 8, not the payload
length. -/
def eth.sadp.packet.PTR_SIZE : Nat := 8

/-- Shallow embedding of `eth::sadp::packet::GetSize` (sadplib.cpp):
-1 for a null frame; otherwise
`DEFAULT_FRAME_HDR_SIZE + DEFAULT_FRAME_BODY_SIZE + sizeof(char *)`
clamped up to MIN_FRAME_SIZE. The frame argument's payload (second
component, carrying the payload the frame was built with) is never
consulted - the source adds the size of the pointer variable, not the
payload's length. -/
def eth.sadp.packet.GetSize (hdr : Option (List Nat × List Nat)) : Int :=
  match hdr with
  | none => -1
  | some _ =>
    let size : Int := eth.sadp.packet.DEFAULT_FRAME_HDR_SIZE
      + eth.sadp.packet.DEFAULT_FRAME_BODY_SIZE + eth.sadp.packet.PTR_SIZE
    if eth.sadp.packet.MIN_FRAME_SIZE < size then size
    else eth.sadp.packet.MIN_FRAME_SIZE

/-- What the spec's size law says `GetSize` computes for payload length
`L`: `max(80, 14 + 38 + L)`. -/
def eth.sadp.packet.SpecFrameSize (payloadLength : Nat) : Int :=
  max 80 (14 + 38 + payloadLength)

/-- `eth::sadp::Daemon::Stop` (sadplib.cpp): clears the running flag. -/
def eth.sadp.Daemon.Stop (_running : Bool) : Bool :=
  false

/-- Outcome of one blocking `IISocket::Receive()` call as the daemon loop
sees it: failure (`count == -1`) or a received byte buffer. -/
inductive eth.sadp.RecvResult where
  | failure
  | success (buf : List Nat)

/-- Observable behaviour of one registered `PacketListener` for the loop
model: an identifier (to record invocations and their order), whether its
`onPacketReceived` raises (the exception is caught by the loop's
`catch (...)`), and whether it calls `Stop()` on the daemon. -/
structure eth.sadp.ListenerSpec where
  id : Nat
  throws : Bool
  stops : Bool

/-- The listener dispatch of one loop iteration of `eth::sadp::Daemon::Run`
(`for i < listenerList.size(), listenerList.at(i)->onPacketReceived(pe)`):
listeners are invoked synchronously in registration (list) order; a
listener that calls `Stop()` clears the running flag; a listener that
raises aborts the rest of the dispatch (the exception is caught at the
loop boundary, so only the invocations made so far are recorded). Returns
(invoked listener ids in order, running flag after the iteration). -/
def eth.sadp.Daemon.dispatch : List eth.sadp.ListenerSpec → Bool → List Nat × Bool
  | [], running => ([], running)
  | l :: rest, running =>
    let running' := if l.stops then eth.sadp.Daemon.Stop running else running
    if l.throws then ([l.id], running')
    else
      let r := eth.sadp.Daemon.dispatch rest running'
      (l.id :: r.1, r.2)

/-- `ntohs(hdr->h_proto)` on a received buffer: `h_proto` is the
little-endian `uint16_t` at byte offset 12 of the link header, and `ntohs`
swaps its bytes, so the value compared against 0x8033 is
`256 * buf[12] + buf[13]`. -/
def eth.sadp.etherTypeNtohs (buf : List Nat) : Nat :=
  256 * byteAt buf 12 + byteAt buf 13

/-- One iteration of the body of `eth::sadp::Daemon::Run`: a failed
Receive (`count == -1`) does nothing; a received buffer is dispatched to
the listeners exactly when `ntohs(h_proto) == 0x8033` - the buffer is
reinterpreted as header and frame views with no length check of any kind.
Returns (invoked listener ids, running flag after the iteration). -/
def eth.sadp.Daemon.runStep (listeners : List eth.sadp.ListenerSpec)
    (r : eth.sadp.RecvResult) (running : Bool) : List Nat × Bool :=
  match r with
  | .failure => ([], running)
  | .success buf =>
    if eth.sadp.etherTypeNtohs buf = 0x8033 then
      eth.sadp.Daemon.dispatch listeners running
    else ([], running)

/-- The capture loop of `eth::sadp::Daemon::Run`, driven by the finite
schedule of Receive outcomes the transport will deliver: while the running
flag holds, take the next outcome, run one iteration, and record that
iteration's listener invocations. The loop exits when the flag is cleared
(checked at the top of each iteration, as in the source). -/
def eth.sadp.Daemon.Run (listeners : List eth.sadp.ListenerSpec) :
    Bool → List eth.sadp.RecvResult → List (List Nat)
  | false, _ => []
  | true, [] => []
  | true, r :: rest =>
    (eth.sadp.Daemon.runStep listeners r true).1 ::
      eth.sadp.Daemon.Run listeners (eth.sadp.Daemon.runStep listeners r true).2 rest

/-- The checksum value `BuildFrame` computes for the given arguments:
`Checksum` over the frame image whose checksum field still holds the zero
bytes of `memset`, with the client type's high byte as discriminant. -/
def eth.sadp.packet.builtChecksum (i : eth.adapter.NetInterface)
    (packetType : eth.sadp.sadp_packet_type) (queryType : eth.sadp.sadp_query_type)
    (payload : List Nat) (payloadLength clientType : Nat) (c : eth.Counter) : Nat :=
  eth.sadp.Checksum
    (eth.sadp.sadpFrameBytes packetType.code queryType.code (clientType % 65536)
      (eth.Counter.GetAndIncrement c).1 0
      (eth.mac.ToBytes i.mac) (eth.ip.ToBytes4 i.ipv4)
      (eth.mac.ToBytes eth.sadp.broadcastMacStr) (payload.take payloadLength))
    (((clientType % 65536) >>> 8) &&& 0xFF)

/-- A concrete interface for evaluating the builders: MAC
"AA:BB:CC:DD:EE:FF", raw IPv6 string "fe800000000000000000000000000001",
IPv4 "192.168.1.2" (all as character codes). -/
def exampleInterface : eth.adapter.NetInterface where
  mac := [65, 65, 58, 66, 66, 58, 67, 67, 58, 68, 68, 58, 69, 69, 58, 70, 70]
  ipv6 := [102, 101, 56, 48, 48, 48, 48, 48, 48, 48, 48, 48, 48, 48, 48, 48,
           48, 48, 48, 48, 48, 48, 48, 48, 48, 48, 48, 48, 48, 48, 48, 49]
  ipv4 := [49, 57, 50, 46, 49, 54, 56, 46, 49, 46, 50]

/-- A 20-byte received buffer whose `h_proto` field reads as ethertype
0x8033 (`ntohs` of the little-endian word 33 80 at offset 12): far shorter
than the 80-byte minimum frame size. -/
def shortBuf : List Nat :=
  [0, 0, 0, 0, 0, 0, 0, 0, 0, 0, 0, 0, 0x80, 0x33, 1, 2, 3, 4, 5, 6]

/-- Dispatch without a throwing listener invokes every listener, in list
(registration) order. -/
theorem dispatch_ids_of_no_throw (ls : List eth.sadp.ListenerSpec) (running : Bool)
    (h : ∀ l ∈ ls, l.throws = false) :
    (eth.sadp.Daemon.dispatch ls running).1 = ls.map (fun l => l.id) := by
  induction ls generalizing running with
  | nil => rfl
  | cons l rest ih =>
    have hl : l.throws = false := h l (List.mem_cons_self l rest)
    have hrest : ∀ x ∈ rest, x.throws = false := fun x hx => h x (List.mem_cons_of_mem l hx)
    simp [eth.sadp.Daemon.dispatch, hl, ih _ hrest]

/-- Dispatch without a stopping listener leaves the running flag as it
was, whether or not a listener throws. -/
theorem dispatch_running_of_no_stop (ls : List eth.sadp.ListenerSpec) (running : Bool)
    (h : ∀ l ∈ ls, l.stops = false) :
    (eth.sadp.Daemon.dispatch ls running).2 = running := by
  induction ls generalizing running with
  | nil => rfl
  | cons l rest ih =>
    have hl : l.stops = false := h l (List.mem_cons_self l rest)
    have hrest : ∀ x ∈ rest, x.stops = false := fun x hx => h x (List.mem_cons_of_mem l hx)
    by_cases ht : l.throws
    · simp [eth.sadp.Daemon.dispatch, hl, ht]
    · simp [eth.sadp.Daemon.dispatch, hl, ht, ih _ hrest]

/-- C8: when the identity (network interface) argument is absent/null,
`BuildInquiry` returns an empty/absent frame - and so does the underlying
`BuildFrame` - leaving the counter untouched; as total functions the
embeddings never raise. -/
theorem buildInquiry_absent_identity :
    (∀ c : eth.Counter, eth.sadp.packet.BuildInquiry none c = (none, c)) ∧
    (∀ (pt : eth.sadp.sadp_packet_type) (qt : eth.sadp.sadp_query_type)
       (payload : List Nat) (plen ct : Nat) (c : eth.Counter),
        eth.sadp.packet.BuildFrame none pt qt payload plen ct c = (none, c)) :=
  ⟨fun _ => rfl, fun _ _ _ _ _ _ => rfl⟩

/-- C4 (code bug): `GetSize` adds `sizeof(payload)/sizeof(char)` where
`payload` is a `char *` local, i.e. the pointer size 8, never the payload
length, so it returns `max(80, 14 + 38 + 8) = 80` for every non-null
frame - here evaluated at a frame carrying a 100-byte payload, where the
spec's size law `max(80, 14 + 38 + L)` demands 152. -/
theorem getSize_ignores_payload_length :
    eth.sadp.packet.GetSize (some (List.replicate 512 0, List.replicate 100 1)) = 80 ∧
    eth.sadp.packet.SpecFrameSize 100 = 152 ∧
    (∀ hdr : List Nat × List Nat, eth.sadp.packet.GetSize (some hdr) = 80) ∧
    eth.sadp.packet.GetSize none = -1 :=
  ⟨rfl, rfl, fun _ => rfl, rfl⟩

/-- C5 counterexample: the receive path of `Daemon::Run` rejects nothing:
for a 20-byte buffer (far below the 80-byte minimum) whose ethertype field
reads 0x8033, the daemon reinterprets the buffer as header/frame views and
notifies its listener - there is no length validation and no
MalformedFrame rejection before the view is produced. -/
theorem daemon_dispatches_undersized_buffer :
    shortBuf.length = 20 ∧
    eth.sadp.etherTypeNtohs shortBuf = 0x8033 ∧
    eth.sadp.Daemon.Run [⟨7, false, false⟩] true [.success shortBuf] = [[7]] := by
  refine ⟨rfl, rfl, rfl⟩

/-- C5 amended: on a buffer already known to carry ethertype 0x8033 the
daemon produces its structured views and dispatches to the listeners
regardless of the buffer's length - in particular even when the buffer is
shorter than 80 bytes; no undersized buffer is ever rejected (the source
has no length check and no MalformedFrame error path). -/
theorem daemon_decode_no_length_check (ls : List eth.sadp.ListenerSpec) (buf : List Nat)
    (_hshort : buf.length < 80) (heth : eth.sadp.etherTypeNtohs buf = 0x8033) :
    eth.sadp.Daemon.runStep ls (.success buf) true = eth.sadp.Daemon.dispatch ls true := by
  simp [eth.sadp.Daemon.runStep, heth]

/-- Witness for the C5 amended theorem at the concrete 20-byte buffer. -/
theorem daemon_decode_no_length_check_witness :
    eth.sadp.Daemon.runStep [⟨7, false, false⟩] (.success shortBuf) true
      = eth.sadp.Daemon.dispatch [⟨7, false, false⟩] true :=
  daemon_decode_no_length_check [⟨7, false, false⟩] shortBuf (by decide) (by decide)

/-- C9: in the daemon's capture loop, a received frame whose ethertype is
not 0x8033 yields zero listener notifications; when dispatch occurs and no
listener raises, every registered listener is invoked in registration
order; a Receive failure notifies nobody and leaves the running flag, and
the loop proceeds to the next iteration after every step (listener errors
are caught at the loop boundary); the loop runs until the running flag is
cleared - it exits once the flag is false, and a dispatch in which no
listener calls Stop() leaves the flag set. -/
theorem daemon_run_dispatch_behavior :
    (∀ (ls : List eth.sadp.ListenerSpec) (buf : List Nat) (running : Bool),
        eth.sadp.etherTypeNtohs buf ≠ 0x8033 →
        eth.sadp.Daemon.runStep ls (.success buf) running = ([], running)) ∧
    (∀ (ls : List eth.sadp.ListenerSpec) (buf : List Nat),
        (∀ l ∈ ls, l.throws = false) → eth.sadp.etherTypeNtohs buf = 0x8033 →
        (eth.sadp.Daemon.runStep ls (.success buf) true).1 = ls.map (fun l => l.id)) ∧
    (∀ (ls : List eth.sadp.ListenerSpec) (running : Bool),
        eth.sadp.Daemon.runStep ls .failure running = ([], running)) ∧
    (∀ (ls : List eth.sadp.ListenerSpec) (r : eth.sadp.RecvResult)
       (rest : List eth.sadp.RecvResult),
        eth.sadp.Daemon.Run ls true (r :: rest)
          = (eth.sadp.Daemon.runStep ls r true).1
              :: eth.sadp.Daemon.Run ls (eth.sadp.Daemon.runStep ls r true).2 rest) ∧
    (∀ (ls : List eth.sadp.ListenerSpec) (sched : List eth.sadp.RecvResult),
        eth.sadp.Daemon.Run ls false sched = []) ∧
    (∀ (ls : List eth.sadp.ListenerSpec) (running : Bool),
        (∀ l ∈ ls, l.stops = false) →
        (eth.sadp.Daemon.dispatch ls running).2 = running) := by
  refine ⟨?_, ?_, ?_, ?_, ?_, ?_⟩
  · intro ls buf running h
    simp [eth.sadp.Daemon.runStep, h]
  · intro ls buf hth heth
    simp [eth.sadp.Daemon.runStep, heth, dispatch_ids_of_no_throw ls true hth]
  · intro ls running
    rfl
  · intro ls r rest
    rfl
  · intro ls sched
    cases sched <;> rfl
  · exact dispatch_running_of_no_stop

/-- C6: the query-type label lookup first subtracts 1 (as a wrapping
`uint8_t`) from the raw byte when the packet type is Response, then maps
the known codes and every other code to "Unknown": looking up a byte under
Response equals looking up its wrapped predecessor under Request; any
adjusted code outside the six known ones yields "Unknown"; in particular
0x04 under Response and 0x03 under Request both map to "Inquiry", and 0xFF
maps to "Unknown" under both packet types. -/
theorem queryTypeToString_lookup :
    (∀ qt : Nat,
        eth.sadp.QueryTypeToString qt eth.sadp.sadp_packet_type.Response
          = eth.sadp.QueryTypeToString ((qt % 256 + 255) % 256)
              eth.sadp.sadp_packet_type.Request) ∧
    (∀ (qt : Nat) (pt : eth.sadp.sadp_packet_type),
        eth.sadp.QueryTypeAdjusted qt pt ∉ ([0x02, 0x03, 0x06, 0x0a, 0x0c, 0x10] : List Nat) →
        eth.sadp.QueryTypeToString qt pt = "Unknown") ∧
    eth.sadp.QueryTypeToString 0x04 eth.sadp.sadp_packet_type.Response = "Inquiry" ∧
    eth.sadp.QueryTypeToString 0x03 eth.sadp.sadp_packet_type.Request = "Inquiry" ∧
    eth.sadp.QueryTypeToString 0xFF eth.sadp.sadp_packet_type.Request = "Unknown" ∧
    eth.sadp.QueryTypeToString 0xFF eth.sadp.sadp_packet_type.Response = "Unknown" := by
  refine ⟨?_, ?_, rfl, rfl, rfl, rfl⟩
  · intro qt
    have hadj : eth.sadp.QueryTypeAdjusted qt eth.sadp.sadp_packet_type.Response
        = eth.sadp.QueryTypeAdjusted ((qt % 256 + 255) % 256)
            eth.sadp.sadp_packet_type.Request := by
      simp [eth.sadp.QueryTypeAdjusted, Nat.mod_mod_of_dvd]
    simp only [eth.sadp.QueryTypeToString, hadj]
  · intro qt pt h
    simp only [List.mem_cons, List.mem_singleton, not_or] at h
    obtain ⟨h2, h3, h6, ha, hc, h10⟩ := h
    simp only [eth.sadp.QueryTypeToString]
    split_ifs <;> simp_all

/-- The trace of `n` consecutive `GetAndIncrement()` calls from start
value `s` is `s % 2^32, (s+1) % 2^32, ...`. -/
theorem counterTrace_mkCounter (s n : Nat) :
    eth.counterTrace (eth.mkCounter s) n
      = (List.range n).map (fun i => (s + i) % 4294967296) := by
  induction n generalizing s with
  | zero => rfl
  | succ n ih =>
    have hstep : (eth.Counter.GetAndIncrement (eth.mkCounter s)).2 = eth.mkCounter (s + 1) := by
      simp [eth.Counter.GetAndIncrement, eth.Counter.Increment, eth.mkCounter,
        Nat.mod_add_mod]
    show (eth.Counter.GetAndIncrement (eth.mkCounter s)).1 ::
        eth.counterTrace (eth.Counter.GetAndIncrement (eth.mkCounter s)).2 n = _
    rw [hstep, ih, List.range_succ_eq_map, List.map_cons, List.map_map]
    refine congrArg₂ _ (by simp [eth.Counter.GetAndIncrement, eth.mkCounter]) ?_
    refine List.map_congr_left fun i _ => ?_
    simp [Function.comp]
    congr 1
    omega

/-- C7: `GetAndIncrement` returns the value held before its increment and
bumps the stored value by 1 mod 2^32; from any start value the trace of
`n` consecutive calls is `start, start+1, ...` reduced mod 2^32, so each
returned value is the mod-2^32 predecessor of the next (wrapping from
2^32 - 1 to 0). -/
theorem counter_getAndIncrement_monotone :
    (∀ c : eth.Counter,
        (eth.Counter.GetAndIncrement c).1 = eth.Counter.Get c ∧
        ((eth.Counter.GetAndIncrement c).2).num = (eth.Counter.Get c + 1) % 4294967296) ∧
    (∀ s n : Nat,
        eth.counterTrace (eth.mkCounter s) n
          = (List.range n).map (fun i => (s + i) % 4294967296)) ∧
    (∀ s n i : Nat, i + 1 < n →
        (eth.counterTrace (eth.mkCounter s) n).getD (i + 1) 0
          = ((eth.counterTrace (eth.mkCounter s) n).getD i 0 + 1) % 4294967296) := by
  refine ⟨fun c => ⟨rfl, rfl⟩, counterTrace_mkCounter, ?_⟩
  intro s n i hin
  have hget : ∀ j, j < n →
      (eth.counterTrace (eth.mkCounter s) n).getD j 0 = (s + j) % 4294967296 := by
    intro j hj
    rw [counterTrace_mkCounter, List.getD_eq_getElem?_getD, List.getElem?_map,
      List.getElem?_range hj]
    rfl
  rw [hget (i + 1) hin, hget i (by omega)]
  omega

/-- C2 counterexample: in a concretely built frame the client-type field
(frame bytes 16-17 of the buffer) and the marker field (bytes 22-23) do
not hold the big-endian images of 0x4201 and 0x0406 - they are stored in
host (little-endian) order, without `htons`. -/
theorem buildFrame_client_type_marker_not_big_endian :
    ((((eth.sadp.packet.BuildFrame (some exampleInterface)
          eth.sadp.sadp_packet_type.Request eth.sadp.sadp_query_type.Inquiry
          (List.replicate 16 0) 16 0x4201 ⟨5⟩).1.getD []).drop 16).take 2
        ≠ u16be 0x4201) ∧
    ((((eth.sadp.packet.BuildFrame (some exampleInterface)
          eth.sadp.sadp_packet_type.Request eth.sadp.sadp_query_type.Inquiry
          (List.replicate 16 0) 16 0x4201 ⟨5⟩).1.getD []).drop 22).take 2
        ≠ u16be 0x0406) := by
  constructor <;> decide

/-- C2 amended: in every frame `BuildFrame` produces, the counter and
checksum fields are serialized big-endian (`htonl`/`htons`), but the
client-type and marker fields are plain stores in host (little-endian)
byte order; the MAC and IPv4 address fields are raw byte copies of the
converted interface addresses, and the payload is appended at its fixed
offset (byte 52 of the buffer, frame offset 38), zero-padded to the end of
the 512-byte buffer. -/
theorem buildFrame_field_byte_order (i : eth.adapter.NetInterface)
    (pt : eth.sadp.sadp_packet_type) (qt : eth.sadp.sadp_query_type)
    (payload : List Nat) (plen ct : Nat) (c : eth.Counter) :
    ((((eth.sadp.packet.BuildFrame (some i) pt qt payload plen ct c).1.getD []).drop 18).take 4
        = u32be (eth.Counter.GetAndIncrement c).1) ∧
    ((((eth.sadp.packet.BuildFrame (some i) pt qt payload plen ct c).1.getD []).drop 26).take 2
        = u16be (eth.sadp.packet.builtChecksum i pt qt payload plen ct c % 65536)) ∧
    ((((eth.sadp.packet.BuildFrame (some i) pt qt payload plen ct c).1.getD []).drop 16).take 2
        = u16le (ct % 65536)) ∧
    ((((eth.sadp.packet.BuildFrame (some i) pt qt payload plen ct c).1.getD []).drop 22).take 2
        = u16le 0x0406) ∧
    (((eth.sadp.packet.BuildFrame (some i) pt qt payload plen ct c).1.getD []).take 6
        = eth.mac.ToBytes eth.sadp.broadcastMacStr) ∧
    ((((eth.sadp.packet.BuildFrame (some i) pt qt payload plen ct c).1.getD []).drop 6).take 6
        = eth.mac.ToBytes i.mac) ∧
    ((((eth.sadp.packet.BuildFrame (some i) pt qt payload plen ct c).1.getD []).drop 28).take 6
        = eth.mac.ToBytes i.mac) ∧
    ((((eth.sadp.packet.BuildFrame (some i) pt qt payload plen ct c).1.getD []).drop 34).take 4
        = eth.ip.ToBytes4 i.ipv4) ∧
    ((((eth.sadp.packet.BuildFrame (some i) pt qt payload plen ct c).1.getD []).drop 38).take 6
        = eth.mac.ToBytes eth.sadp.broadcastMacStr) ∧
    (((eth.sadp.packet.BuildFrame (some i) pt qt payload plen ct c).1.getD []).drop 52
        = payload.take plen ++ List.replicate (474 - (payload.take plen).length) 0) :=
  ⟨rfl, rfl, rfl, rfl, rfl, rfl, rfl, rfl, rfl, rfl⟩

set_option maxHeartbeats 2000000 in
/-- C3: for every present identity, `BuildInquiry` produces a frame whose
link header is destination = broadcast FF:FF:FF:FF:FF:FF, source = the
identity's MAC, ethertype = 0x8033 in wire order (bytes 80 33); and whose
SADP frame fields are prefix 0x21, packet type Request (0x02), client
type 0x4201 (field value, stored host-order), counter = the value
`GetAndIncrement()` returns, marker field value 0x0406, query type
Inquiry (0x03), parameters 0, checksum = `Checksum` over the serialized
frame (with a zeroed checksum field) using the client type's high byte
0x42 as discriminant, truncated to 16 bits and stored big-endian, source
MAC and IPv4 = the identity's converted addresses, destination MAC =
broadcast, destination IPv4 = zero, and payload = the 16 raw bytes of the
identity's IPv6 address. -/
theorem buildInquiry_fields (ifc : eth.adapter.NetInterface) (c : eth.Counter) :
    ((eth.sadp.packet.BuildInquiry (some ifc) c).1.isSome = true) ∧
    (((eth.sadp.packet.BuildInquiry (some ifc) c).1.getD []).take 6
        = List.replicate 6 0xFF) ∧
    ((((eth.sadp.packet.BuildInquiry (some ifc) c).1.getD []).drop 6).take 6
        = eth.mac.ToBytes ifc.mac) ∧
    ((((eth.sadp.packet.BuildInquiry (some ifc) c).1.getD []).drop 12).take 2
        = [0x80, 0x33]) ∧
    (((eth.sadp.packet.BuildInquiry (some ifc) c).1.getD []).getD 14 0 = 0x21) ∧
    (((eth.sadp.packet.BuildInquiry (some ifc) c).1.getD []).getD 15 0
        = eth.sadp.sadp_packet_type.Request.code) ∧
    ((((eth.sadp.packet.BuildInquiry (some ifc) c).1.getD []).drop 16).take 2
        = u16le eth.sadp.CSADP_CLIENT_TYPE) ∧
    ((((eth.sadp.packet.BuildInquiry (some ifc) c).1.getD []).drop 18).take 4
        = u32be (eth.Counter.GetAndIncrement c).1) ∧
    ((((eth.sadp.packet.BuildInquiry (some ifc) c).1.getD []).drop 22).take 2
        = u16le 0x0406) ∧
    (((eth.sadp.packet.BuildInquiry (some ifc) c).1.getD []).getD 24 0
        = eth.sadp.sadp_query_type.Inquiry.code) ∧
    (((eth.sadp.packet.BuildInquiry (some ifc) c).1.getD []).getD 25 0 = 0) ∧
    ((((eth.sadp.packet.BuildInquiry (some ifc) c).1.getD []).drop 26).take 2
        = u16be (eth.sadp.Checksum
            (eth.sadp.sadpFrameBytes 2 3 0x4201 (eth.Counter.GetAndIncrement c).1 0
              (eth.mac.ToBytes ifc.mac) (eth.ip.ToBytes4 ifc.ipv4)
              (eth.mac.ToBytes eth.sadp.broadcastMacStr)
              ((eth.ip.ToBytes6 ifc.ipv6).take 16))
            0x42 % 65536)) ∧
    ((((eth.sadp.packet.BuildInquiry (some ifc) c).1.getD []).drop 28).take 6
        = eth.mac.ToBytes ifc.mac) ∧
    ((((eth.sadp.packet.BuildInquiry (some ifc) c).1.getD []).drop 34).take 4
        = eth.ip.ToBytes4 ifc.ipv4) ∧
    ((((eth.sadp.packet.BuildInquiry (some ifc) c).1.getD []).drop 38).take 6
        = List.replicate 6 0xFF) ∧
    ((((eth.sadp.packet.BuildInquiry (some ifc) c).1.getD []).drop 46).take 4
        = [0, 0, 0, 0]) ∧
    ((((eth.sadp.packet.BuildInquiry (some ifc) c).1.getD []).drop 52).take 16
        = eth.ip.ToBytes6 ifc.ipv6) :=
  ⟨rfl, rfl, rfl, rfl, rfl, rfl, rfl, rfl, rfl, rfl, rfl, rfl, rfl, rfl, rfl, rfl, rfl⟩

/-- Clearing only the lowest bit of a 32-bit value: `d & 0xFFFFFFFE` is
`d` rounded down to a multiple of 2. -/
theorem and_mask_fffffffe (d : Nat) (hd : d < 4294967296) :
    d &&& 0xFFFFFFFE = 2 * (d / 2) := by
  have h0 : (d &&& 0xFFFFFFFE) % 2 = 0 := by
    rw [← Nat.and_one_is_mod, Nat.and_assoc]
    have e : (0xFFFFFFFE : Nat) &&& 1 = 0 := by decide
    rw [e, Nat.and_zero]
  have h1 : (d &&& 0xFFFFFFFE) / 2 = d / 2 := by
    rw [Nat.and_div_two]
    have e : (0xFFFFFFFE : Nat) / 2 = 2147483647 := by norm_num
    rw [e]
    have e2 := Nat.and_pow_two_sub_one_eq_mod (d / 2) 31
    norm_num at e2
    rw [e2]
    omega
  omega

/-- Clearing the two lowest bits of a 32-bit value: `d & 0xFFFFFFFC` is
`d` rounded down to a multiple of 4. -/
theorem and_mask_fffffffc (d : Nat) (hd : d < 4294967296) :
    d &&& 0xFFFFFFFC = 4 * (d / 4) := by
  have h0 : (d &&& 0xFFFFFFFC) % 2 = 0 := by
    rw [← Nat.and_one_is_mod, Nat.and_assoc]
    have e : (0xFFFFFFFC : Nat) &&& 1 = 0 := by decide
    rw [e, Nat.and_zero]
  have h1 : ((d &&& 0xFFFFFFFC) / 2) % 2 = 0 := by
    rw [Nat.and_div_two, ← Nat.and_one_is_mod, Nat.and_assoc]
    have e : (0xFFFFFFFC : Nat) / 2 &&& 1 = 0 := by decide
    rw [e, Nat.and_zero]
  have h2 : (d &&& 0xFFFFFFFC) / 2 / 2 = d / 2 / 2 := by
    rw [Nat.and_div_two, Nat.and_div_two]
    have e : (0xFFFFFFFC : Nat) / 2 / 2 = 1073741823 := by norm_num
    rw [e]
    have e2 := Nat.and_pow_two_sub_one_eq_mod (d / 2 / 2) 30
    norm_num at e2
    rw [e2]
    omega
  omega

/-- The source's loop guard `3 < (prefix & 0xFFFFFFFE)` and the spec's
"discriminant with its two low bits cleared exceeds 3" are equivalent:
both say the 32-bit discriminant is at least 4. -/
theorem checksum_guard_iff (d : Nat) (hd : d < 4294967296) :
    (3 < d &&& 0xFFFFFFFE) ↔ (3 < d &&& 0xFFFFFFFC) := by
  rw [and_mask_fffffffe d hd, and_mask_fffffffc d hd]
  omega

/-- Closed form of the interleaved accumulation loop: running it `n` times
advances the word position by `2n`, consumes `4n` from the remaining
count, and adds the even- and odd-indexed words to the two accumulators
respectively. -/
theorem checksumLoop_closed_form (header : List Nat) (n : Nat) :
    ∀ pos rem v1 v2 : Nat,
      eth.sadp.checksumLoop header n (pos, rem, v1, v2)
        = (pos + 2 * n, rem - 4 * n,
           v1 + Finset.sum (Finset.range n) (fun i => wordAt header (pos + 2 * i)),
           v2 + Finset.sum (Finset.range n) (fun i => wordAt header (pos + 2 * i + 1))) := by
  induction n with
  | zero =>
    intro pos rem v1 v2
    simp [eth.sadp.checksumLoop]
  | succ n ih =>
    intro pos rem v1 v2
    have hstep : eth.sadp.checksumLoop header (n + 1) (pos, rem, v1, v2)
        = eth.sadp.checksumLoop header n
            (pos + 2, rem - 4, v1 + wordAt header pos, v2 + wordAt header (pos + 1)) := rfl
    rw [hstep, ih]
    have harg1 : Finset.sum (Finset.range n) (fun i => wordAt header (pos + 2 + 2 * i))
        = Finset.sum (Finset.range n) (fun i => wordAt header (pos + 2 * (i + 1))) :=
      Finset.sum_congr rfl fun i _ => by
        have : pos + 2 + 2 * i = pos + 2 * (i + 1) := by ring
        rw [this]
    have harg2 : Finset.sum (Finset.range n) (fun i => wordAt header (pos + 2 + 2 * i + 1))
        = Finset.sum (Finset.range n) (fun i => wordAt header (pos + 2 * (i + 1) + 1)) :=
      Finset.sum_congr rfl fun i _ => by
        have : pos + 2 + 2 * i = pos + 2 * (i + 1) := by ring
        rw [this]
    simp only [Prod.mk.injEq]
    refine ⟨by omega, by omega, ?_, ?_⟩
    · rw [harg1, Finset.sum_range_succ' (fun i => wordAt header (pos + 2 * i)) n]
      simp only [Nat.mul_zero, Nat.add_zero]
      omega
    · rw [harg2, Finset.sum_range_succ' (fun i => wordAt header (pos + 2 * i + 1)) n]
      simp only [Nat.mul_zero, Nat.add_zero]
      omega

/-- C1: the source's `Checksum` computes exactly the algorithm the
specification describes (the only textual difference, the source's
one-low-bit mask `0xFFFFFFFE` against the spec's two cleared low bits,
does not change the guard: both hold exactly when the discriminant is at
least 4). -/
theorem checksum_matches_spec_algorithm (header : List Nat) (ty : Nat) :
    eth.sadp.Checksum header ty = eth.sadp.ChecksumSpec header ty := by
  have hd : ty % 4294967296 < 4294967296 := Nat.mod_lt _ (by norm_num)
  unfold eth.sadp.Checksum eth.sadp.ChecksumSpec
  dsimp only
  by_cases hg : 3 < ty % 4294967296 &&& 0xFFFFFFFE
  · have hg' : 3 < ty % 4294967296 &&& 0xFFFFFFFC := (checksum_guard_iff _ hd).mp hg
    rw [if_pos hg, if_pos hg', checksumLoop_closed_form]
    dsimp only
    simp only [Nat.zero_add]
  · have hg' : ¬ 3 < ty % 4294967296 &&& 0xFFFFFFFC :=
      fun hcc => hg ((checksum_guard_iff _ hd).mpr hcc)
    rw [if_neg hg, if_neg hg', checksumLoop_closed_form]
    dsimp only
    simp only [Finset.range_zero, Finset.sum_empty, Nat.zero_add, Nat.add_zero,
      Nat.mul_zero, Nat.sub_zero]

/-- The final fold-and-complement of `Checksum` applied to any 32-bit
accumulator lies between 2^16 and 2^32. -/
theorem checksum_tail_bound (ck2 : Nat) (h : ck2 < 4294967296) :
    65536 ≤ 4294967295 -
        ((((ck2 >>> 16) + (ck2 &&& 0xFFFF)) >>> 16)
          + ((ck2 >>> 16) + (ck2 &&& 0xFFFF))) % 4294967296 ∧
    4294967295 -
        ((((ck2 >>> 16) + (ck2 &&& 0xFFFF)) >>> 16)
          + ((ck2 >>> 16) + (ck2 &&& 0xFFFF))) % 4294967296 < 4294967296 := by
  have e1 : ck2 &&& 0xFFFF = ck2 % 65536 := by
    have e := Nat.and_pow_two_sub_one_eq_mod ck2 16
    norm_num at e
    exact e
  have e2 : ck2 >>> 16 = ck2 / 65536 := by
    rw [Nat.shiftRight_eq_div_pow]
  rw [e1, e2]
  have e3 : (ck2 / 65536 + ck2 % 65536) >>> 16 = (ck2 / 65536 + ck2 % 65536) / 65536 := by
    rw [Nat.shiftRight_eq_div_pow]
  rw [e3]
  have hb3 : (ck2 / 65536 + ck2 % 65536) / 65536 + (ck2 / 65536 + ck2 % 65536)
      < 4294967296 := by omega
  rw [Nat.mod_eq_of_lt hb3]
  omega


/-- C10: on the all-zero 66-byte buffer with discriminant 0x42 the
checksum is 0xFFFFFFFF, the 32-bit one's complement of zero; in general
the returned value always carries set upper bits (it lies in
[2^16, 2^32)), so it never fits the 16-bit wire field, and `BuildFrame`
stores exactly the low 16 bits of it ((uint16_t) truncation before
`htons`) in the checksum field. -/
theorem checksum_zero_buffer_32bit :
    eth.sadp.Checksum (List.replicate 66 0) 0x42 = 0xFFFFFFFF ∧
    (∀ (header : List Nat) (ty : Nat),
        65536 ≤ eth.sadp.Checksum header ty ∧
        eth.sadp.Checksum header ty < 4294967296) ∧
    (∀ (i : eth.adapter.NetInterface) (pt : eth.sadp.sadp_packet_type)
       (qt : eth.sadp.sadp_query_type) (payload : List Nat) (plen ct : Nat)
       (c : eth.Counter),
        (((eth.sadp.packet.BuildFrame (some i) pt qt payload plen ct c).1.getD []).drop 26).take 2
          = u16be (eth.sadp.packet.builtChecksum i pt qt payload plen ct c % 65536)) := by
  refine ⟨by decide, ?_, fun i pt qt payload plen ct c => rfl⟩
  intro header ty
  unfold eth.sadp.Checksum
  dsimp only
  rcases hloop : eth.sadp.checksumLoop header
      (if 3 < ty % 4294967296 &&& 0xFFFFFFFE then ((ty % 4294967296 - 4) >>> 2) + 1 else 0)
      (0, ty % 4294967296, 0, 0) with ⟨pos, rem, v1, v2⟩
  dsimp only
  refine checksum_tail_bound _ ?_
  by_cases h2 : (if 1 < rem then rem - 2 else rem) ≠ 0
  · rw [if_pos h2]
    exact Nat.mod_lt _ (by norm_num)
  · rw [if_neg h2]
    exact Nat.mod_lt _ (by norm_num)
